import Mathlib

/-!
Verification of the sun widget toolkit's interaction-state machines, shallowly
embedded from the repository's TypeScript/JavaScript sources:

* `PushButtonModel` (demo appendix of `ComponentsScreenView.ts`): the
  over/down/enabled flags, the derived `interactionState`, and the
  fire-on-down / fire-on-up policies.
* `RadioButtonInteractionStateProperty` and `AquaRadioButton.fire`.
* `ComboBox`: the list-box visibility link, the click-to-dismiss listener and
  `hideListBox`.
* `AccessibleNumberSpinner`: the keyboard-repeat timer state machine.

Booleans, flags and key codes are embedded directly; axon `Property` set/link
semantics (listeners notified only on an actual value change) are made explicit
in the step functions.
-/

namespace Sun

/-! ## PushButtonModel (ComponentsScreenView.ts appendix)

The model holds `over`, `down`, `enabled` flags.  `down` is driven by
pointerDown/pointerUp, `over` by pointerEnter/pointerExit.  Axon properties
notify their `onValue` listeners only when the stored value actually changes,
so the fire checks run only on a transition of `down`. -/

inductive PBEvent where
  | pointerEnter
  | pointerExit
  | pointerDown
  | pointerUp
  deriving DecidableEq, Repr

structure PBState where
  over : Bool
  down : Bool
  enabled : Bool
  deriving DecidableEq, Repr

/-- Constructor defaults: `over: false, down: false, enabled: true`. -/
def pbInit : PBState := { over := false, down := false, enabled := true }

/-- One input event applied to the model; the second component is whether the
model fired on this event.  `down.onValue(true)` fires when `fireOnDown` and
enabled; `down.onValue(false)` fires when `!fireOnDown` and `over` and enabled,
reading the flags at callback time. -/
def pbStep (fireOnDown : Bool) (s : PBState) (e : PBEvent) : PBState × Bool :=
  match e with
  | .pointerEnter => ({ s with over := true }, false)
  | .pointerExit  => ({ s with over := false }, false)
  | .pointerDown  =>
      if s.down then (s, false)
      else ({ s with down := true }, fireOnDown && s.enabled)
  | .pointerUp    =>
      if s.down then ({ s with down := false }, !fireOnDown && s.over && s.enabled)
      else (s, false)

/-- Run a sequence of events through the model. -/
def pbRun (fireOnDown : Bool) (s : PBState) (es : List PBEvent) : PBState :=
  es.foldl (fun t e => (pbStep fireOnDown t e).1) s

theorem pbStep_enabled (fireOnDown : Bool) (s : PBState) (e : PBEvent) :
    (pbStep fireOnDown s e).1.enabled = s.enabled := by
  cases e <;> simp [pbStep] <;> split <;> rfl

theorem pbRun_enabled (fireOnDown : Bool) (s : PBState) (es : List PBEvent) :
    (pbRun fireOnDown s es).enabled = s.enabled := by
  induction es generalizing s with
  | nil => rfl
  | cons e es ih =>
      simp only [pbRun, List.foldl_cons] at ih ⊢
      rw [ih, pbStep_enabled]

/-- The `interactionState` derived property of the demo `PushButtonModel`. -/
def interactionState (over down enabled : Bool) : String :=
  if !enabled then "disabled"
  else if over && !down then "over"
  else if over && down then "pressed"
  else "idle"

/-- The derivation exactly as the claim states it: `disabled` when not enabled,
otherwise `pressed` when `down && enabled`, otherwise `over` when
`over && enabled && !down`, otherwise `idle`. -/
def interactionStateClaimed (over down enabled : Bool) : String :=
  if !enabled then "disabled"
  else if down && enabled then "pressed"
  else if over && enabled && !down then "over"
  else "idle"

/-- The amended derivation: `pressed` additionally requires `over`; a button
that is down but not over is `idle`. -/
def interactionStateAmended (over down enabled : Bool) : String :=
  if !enabled then "disabled"
  else if over && down then "pressed"
  else if over && !down then "over"
  else "idle"

/-- C2 counterexample: with `enabled = true`, `down = true`, `over = false`
the code computes `"idle"`, not the `"pressed"` the claim requires. -/
theorem interactionState_claim_cex :
    interactionState false true true = "idle" ∧
    interactionStateClaimed false true true = "pressed" ∧
    interactionState false true true ≠ interactionStateClaimed false true true := by
  refine ⟨rfl, rfl, ?_⟩
  decide

/-- C2 (amended): for every combination of the flags, the derived
`interactionState` is `disabled` when not enabled, else `pressed` when
`over && down`, else `over` when `over && !down`, else `idle`; in particular
a button that is down but not over while enabled reads `idle`. -/
theorem interactionState_matches_amended_spec (over down enabled : Bool) :
    interactionState over down enabled = interactionStateAmended over down enabled := by
  cases over <;> cases down <;> cases enabled <;> rfl

/-- C1 counterexample: with `fireOnDown = true` and the event sequence
`[pointerDown, pointerDown]`, the model stays enabled throughout, yet the
second `pointerDown` does not fire (the `down` property does not transition),
contradicting the claim that the model fires on the `pointerDown` event while
enabled. -/
theorem pushButtonModel_fireOnDown_cex :
    (pbRun true pbInit [PBEvent.pointerDown]).enabled = true ∧
    (pbStep true (pbRun true pbInit [PBEvent.pointerDown]) PBEvent.pointerDown).2 = false := by
  decide

/-- C1 (amended): staying enabled throughout, with `fireOnDown = false` the
model fires exactly at an up event that releases a held press while `over` is
still true; with `fireOnDown = true` it fires exactly at a down event that
presses the button (i.e. `down` transitions from false to true). -/
theorem pushButtonModel_fire_iff (pre : List PBEvent) (e : PBEvent) :
    ((pbStep false (pbRun false pbInit pre) e).2 = true ↔
      (e = PBEvent.pointerUp ∧ (pbRun false pbInit pre).down = true ∧
        (pbRun false pbInit pre).over = true)) ∧
    ((pbStep true (pbRun true pbInit pre) e).2 = true ↔
      (e = PBEvent.pointerDown ∧ (pbRun true pbInit pre).down = false)) := by
  have h0 : (pbRun false pbInit pre).enabled = true := pbRun_enabled false pbInit pre
  have h1 : (pbRun true pbInit pre).enabled = true := pbRun_enabled true pbInit pre
  constructor
  · cases e <;>
      simp only [pbStep, h0] <;>
      [skip; skip;
        (cases hd : (pbRun false pbInit pre).down <;> simp [hd]);
        (cases hd : (pbRun false pbInit pre).down <;> simp [hd, h0])] <;>
      simp
  · cases e <;>
      simp only [pbStep, h1] <;>
      [skip; skip;
        (cases hd : (pbRun true pbInit pre).down <;> simp [hd, h1]);
        (cases hd : (pbRun true pbInit pre).down <;> simp [hd])] <;>
      simp

/-! ## RadioButtonInteractionStateProperty (src/unnamed/part_003)

A pure derivation of the radio-button view state from the ButtonModel flags
`focused`, `over`, `looksOver`, `looksPressed` and the shared value cell.
Values are embedded as `Nat`; `isSelected` is `propertyValue === value`. -/

inductive RadioButtonInteractionState where
  | over
  | pressed
  | selected
  | deselected
  deriving DecidableEq, Repr

/-- The derivation exactly as in the source. -/
def radioButtonInteractionState (focused over looksOver looksPressed : Bool)
    (propertyValue value : Nat) : RadioButtonInteractionState :=
  if looksOver && !(looksPressed || (propertyValue == value)) then .over
  else if (over || focused) && looksPressed then .pressed
  else if propertyValue == value then .selected
  else .deselected

/-- The derivation exactly as the claim states it: the OVER clause tests
`over` rather than `looksOver`. -/
def radioButtonInteractionStateClaimed (focused over looksOver looksPressed : Bool)
    (propertyValue value : Nat) : RadioButtonInteractionState :=
  if over && !(looksPressed || (propertyValue == value)) then .over
  else if (over || focused) && looksPressed then .pressed
  else if propertyValue == value then .selected
  else .deselected

/-- The amended derivation: `looksOver && !(looksPressed || selected)` gives
OVER; `(over || focused) && looksPressed` gives PRESSED; `selected` gives
SELECTED; otherwise DESELECTED. -/
def radioButtonInteractionStateAmended (focused over looksOver looksPressed : Bool)
    (propertyValue value : Nat) : RadioButtonInteractionState :=
  if looksOver && !(looksPressed || (propertyValue == value)) then .over
  else if (over || focused) && looksPressed then .pressed
  else if propertyValue == value then .selected
  else .deselected

/-- C5 counterexample: with `over = true` but `looksOver = false` (and nothing
pressed or selected) the code computes DESELECTED while the claim's derivation
computes OVER. -/
theorem radioInteractionState_claim_cex :
    radioButtonInteractionState false true false false 0 1 =
      RadioButtonInteractionState.deselected ∧
    radioButtonInteractionStateClaimed false true false false 0 1 =
      RadioButtonInteractionState.over := by
  decide

/-- C5 (amended): for every combination of flags and values the derivation
equals the spec precedence with `looksOver` (not `over`) in the OVER clause. -/
theorem radioInteractionState_matches_amended_spec
    (focused over looksOver looksPressed : Bool) (propertyValue value : Nat) :
    radioButtonInteractionState focused over looksOver looksPressed propertyValue value =
      radioButtonInteractionStateAmended focused over looksOver looksPressed
        propertyValue value := rfl

/-! ## Radio button group (C6) -/

/-- One member of a group sharing the external value cell. -/
structure RadioMember where
  focused : Bool
  over : Bool
  looksOver : Bool
  looksPressed : Bool
  value : Nat
  deriving DecidableEq, Repr

/-- The member's `RadioButtonInteractionStateProperty` at a given cell value. -/
def memberInteractionState (cell : Nat) (m : RadioMember) : RadioButtonInteractionState :=
  radioButtonInteractionState m.focused m.over m.looksOver m.looksPressed cell m.value

theorem memberInteractionState_selected_value {cell : Nat} {m : RadioMember}
    (h : memberInteractionState cell m = .selected) : m.value = cell := by
  unfold memberInteractionState radioButtonInteractionState at h
  by_cases hb : (cell == m.value) = true
  · have : cell = m.value := by simpa using hb
    exact this.symm
  · exfalso
    have hb' : (cell == m.value) = false := by simpa using hb
    rw [hb'] at h
    split_ifs at h <;> simp_all

/-- Concrete group falsifying C6's "exactly one" clause: the single member's
value is held by the cell, but it reports PRESSED, not SELECTED. -/
def radioCexGroup : List RadioMember :=
  [{ focused := false, over := true, looksOver := false, looksPressed := true, value := 1 }]

/-- C6 counterexample: a group with pairwise distinct values whose value cell
holds a declared value, yet no member reports SELECTED (the selected member is
being pressed and reports PRESSED). -/
theorem radioGroup_exactly_one_cex :
    (radioCexGroup.map RadioMember.value).Nodup ∧
    1 ∈ radioCexGroup.map RadioMember.value ∧
    radioCexGroup.map (memberInteractionState 1) =
      [RadioButtonInteractionState.pressed] ∧
    ∀ m ∈ radioCexGroup, memberInteractionState 1 m ≠ RadioButtonInteractionState.selected := by
  decide

/-- C6 (amended): in a group with pairwise distinct declared values sharing one
value cell, at most one member reports SELECTED; and the member whose value the
cell holds reports SELECTED — and is the only one to do so — provided it is not
in the pressed condition `(over || focused) && looksPressed`. -/
theorem radioGroup_selected_at_most_one (cell : Nat) (ms : List RadioMember)
    (hn : (ms.map RadioMember.value).Nodup) :
    (∀ i j (hi : i < ms.length) (hj : j < ms.length),
      memberInteractionState cell (ms.get ⟨i, hi⟩) = .selected →
      memberInteractionState cell (ms.get ⟨j, hj⟩) = .selected → i = j) ∧
    (∀ k (hk : k < ms.length),
      (ms.get ⟨k, hk⟩).value = cell →
      (((ms.get ⟨k, hk⟩).over || (ms.get ⟨k, hk⟩).focused) &&
          (ms.get ⟨k, hk⟩).looksPressed) = false →
      memberInteractionState cell (ms.get ⟨k, hk⟩) = .selected ∧
      ∀ j (hj : j < ms.length),
        memberInteractionState cell (ms.get ⟨j, hj⟩) = .selected → j = k) := by
  have hinj : ∀ i j (hi : i < ms.length) (hj : j < ms.length),
      (ms.get ⟨i, hi⟩).value = (ms.get ⟨j, hj⟩).value → i = j := by
    intro i j hi hj hv
    have hi' : i < (ms.map RadioMember.value).length := by simpa using hi
    have hj' : j < (ms.map RadioMember.value).length := by simpa using hj
    have : (ms.map RadioMember.value).get ⟨i, hi'⟩ =
        (ms.map RadioMember.value).get ⟨j, hj'⟩ := by
      simpa using hv
    have := (List.Nodup.get_inj_iff hn).mp this
    simpa using this
  have hmost : ∀ i j (hi : i < ms.length) (hj : j < ms.length),
      memberInteractionState cell (ms.get ⟨i, hi⟩) = .selected →
      memberInteractionState cell (ms.get ⟨j, hj⟩) = .selected → i = j := by
    intro i j hi hj h1 h2
    exact hinj i j hi hj
      ((memberInteractionState_selected_value h1).trans
        (memberInteractionState_selected_value h2).symm)
  refine ⟨hmost, ?_⟩
  intro k hk hv hp
  set m := ms.get ⟨k, hk⟩ with hm
  have hsel : memberInteractionState cell m = .selected := by
    unfold memberInteractionState radioButtonInteractionState
    have hbeq : (cell == m.value) = true := by simp [hv]
    rw [hbeq]
    simp [hp]
  refine ⟨hsel, ?_⟩
  intro j hj hjsel
  exact hmost j k hj hk hjsel hsel

/-- Concrete two-member group for the witness below. -/
def radioWitnessGroup : List RadioMember :=
  [{ focused := false, over := false, looksOver := false, looksPressed := false, value := 5 },
   { focused := false, over := false, looksOver := false, looksPressed := false, value := 6 }]

/-- Witness for `radioGroup_selected_at_most_one` at a concrete two-member
group with the first member selected. -/
theorem radioGroup_selected_at_most_one_witness :
    memberInteractionState 5 (radioWitnessGroup.get ⟨0, by decide⟩) =
      RadioButtonInteractionState.selected :=
  ((radioGroup_selected_at_most_one 5 radioWitnessGroup (by decide)).2 0 (by decide)
      (by decide) (by decide)).1

/-! ## AquaRadioButton.fire (src/js/AquaRadioButton.ts)

`fire` is the callback of both the pointer `FireListener` and the keyboard
`change` listener: it sets the shared Property to the button's declared value
and plays the selection sound, unconditionally. -/

structure AquaState where
  propertyValue : Nat
  soundPlays : Nat
  deriving DecidableEq, Repr

/-- `fire`: `property.set( value ); options.soundPlayer.play();` -/
def aquaRadioButtonFire (value : Nat) (s : AquaState) : AquaState :=
  { propertyValue := value, soundPlays := s.soundPlays + 1 }

/-- C10: every activation sets the Property to the button's value and plays the
sound (also when already selected); activating an already-selected button
leaves the Property unchanged, and two consecutive activations affect the
Property the same as one. -/
theorem aquaRadioButton_fire_properties (value : Nat) (s : AquaState) :
    (aquaRadioButtonFire value s).propertyValue = value ∧
    (aquaRadioButtonFire value s).soundPlays = s.soundPlays + 1 ∧
    (s.propertyValue = value →
      (aquaRadioButtonFire value s).propertyValue = s.propertyValue) ∧
    (aquaRadioButtonFire value (aquaRadioButtonFire value s)).propertyValue =
      (aquaRadioButtonFire value s).propertyValue := by
  refine ⟨rfl, rfl, ?_, rfl⟩
  intro h
  simp [aquaRadioButtonFire, h]

/-- Witness for `aquaRadioButton_fire_properties`: firing an already-selected
button leaves the Property value unchanged. -/
theorem aquaRadioButton_fire_properties_witness :
    (aquaRadioButtonFire 2 { propertyValue := 2, soundPlays := 0 }).propertyValue =
      ({ propertyValue := 2, soundPlays := 0 } : AquaState).propertyValue :=
  (aquaRadioButton_fire_properties 2 { propertyValue := 2, soundPlays := 0 }).2.2.1 rfl

/-! ## ComboBox open/close/dismiss (src/js/ComboBox.ts)

State: the list box's `visibleProperty` value, the tracked `display` the
`clickToDismissListener` was added to, and — to express "attached to exactly
one root input dispatcher" — the list of displays currently holding the
listener (`addInputListener` conses, `removeInputListener` erases one
occurrence).  Axon Property semantics: the `visibleProperty` link runs only
when the stored value actually changes. -/

abbrev DisplayId := Nat

structure ComboBoxState where
  listBoxVisible : Bool
  display : Option DisplayId
  attachedTo : List DisplayId
  deriving DecidableEq, Repr

/-- Attach/detach actions performed on a display's input listener list. -/
inductive CBAction where
  | attach (d : DisplayId)
  | detach (d : DisplayId)
  deriving DecidableEq, Repr

/-- Production mode: the `?fuzz` query parameter is off. -/
def isFuzzEnabled : Bool := false

/-- Setting `listBox.visibleProperty` and the linked listener
(`listBox.visibleProperty.link`): on becoming visible the listener is added to
the root display of the combo box's unique trail (`rootDisplay`); on becoming
hidden it is removed from the tracked display if still attached there. -/
def setListBoxVisible (s : ComboBoxState) (visible : Bool) (rootDisplay : DisplayId) :
    ComboBoxState × List CBAction :=
  if s.listBoxVisible == visible then (s, [])
  else if visible then
    ({ listBoxVisible := true, display := some rootDisplay,
       attachedTo := rootDisplay :: s.attachedTo },
      [CBAction.attach rootDisplay])
  else
    match s.display with
    | some d =>
        if d ∈ s.attachedTo then
          ({ listBoxVisible := false, display := none, attachedTo := s.attachedTo.erase d },
            [CBAction.detach d])
        else ({ s with listBoxVisible := false }, [])
    | none => ({ s with listBoxVisible := false }, [])

/-- `showListBox()` -/
def showListBox (s : ComboBoxState) (rootDisplay : DisplayId) : ComboBoxState × List CBAction :=
  setListBoxVisible s true rootDisplay

/-- `hideListBox()`; no display lookup happens on the hide path, so the
`rootDisplay` argument of `setListBoxVisible` is irrelevant here. -/
def hideListBox (s : ComboBoxState) : ComboBoxState × List CBAction :=
  setListBoxVisible s false 0

/-- The button's listener: toggles the list box's visibility. -/
def pressComboBoxButton (s : ComboBoxState) (rootDisplay : DisplayId) :
    ComboBoxState × List CBAction :=
  setListBoxVisible s (!s.listBoxVisible) rootDisplay

/-- The `clickToDismissListener.down` handler, invoked when a pointer-down is
dispatched by a display `d` that the listener is attached to.  `trailHasButton`
and `trailHasListBox` are whether the event's trail contains the button or the
list box. -/
def clickToDismissDown (s : ComboBoxState) (d : DisplayId)
    (trailHasButton trailHasListBox : Bool) : ComboBoxState × List CBAction :=
  if d ∈ s.attachedTo then
    if !isFuzzEnabled then
      if !(trailHasButton || trailHasListBox) then hideListBox s else (s, [])
    else (s, [])
  else (s, [])

inductive CBEvent where
  | pressButton (d : DisplayId)
  | showList (d : DisplayId)
  | hideList
  | pointerDown (d : DisplayId) (trailHasButton trailHasListBox : Bool)
  | focusChange (dismissing : Bool)
  | displayOnlySet
  deriving DecidableEq, Repr

/-- One external event applied to the combo box.  `focusChange true` is a PDOM
focus move to a non-null focus outside the list box (`dismissWithFocusListener`
hides); `displayOnlySet` is a change of `displayOnlyProperty` (its link always
hides). -/
def cbStep (s : ComboBoxState) (e : CBEvent) : ComboBoxState :=
  match e with
  | .pressButton d => (pressComboBoxButton s d).1
  | .showList d => (showListBox s d).1
  | .hideList => (hideListBox s).1
  | .pointerDown d b l => (clickToDismissDown s d b l).1
  | .focusChange dismissing => if dismissing then (hideListBox s).1 else s
  | .displayOnlySet => (hideListBox s).1

def cbInit : ComboBoxState := { listBoxVisible := false, display := none, attachedTo := [] }

def cbRun (es : List CBEvent) : ComboBoxState := es.foldl cbStep cbInit

/-- C3's invariant: list visible → the dismiss listener is attached to exactly
the one tracked display; list hidden → the listener is detached and the tracked
display cleared. -/
def dismissInvariant (s : ComboBoxState) : Bool :=
  if s.listBoxVisible then
    match s.display with
    | some d => s.attachedTo == [d]
    | none => false
  else (s.display == none) && s.attachedTo.isEmpty

theorem dismissInvariant_shape (s : ComboBoxState) (h : dismissInvariant s = true) :
    s = cbInit ∨ ∃ d, s = { listBoxVisible := true, display := some d, attachedTo := [d] } := by
  rcases s with ⟨v, disp, att⟩
  cases v
  · left
    simp [dismissInvariant] at h
    simp [cbInit, h.1, h.2]
  · right
    cases disp with
    | none => simp [dismissInvariant] at h
    | some d =>
        refine ⟨d, ?_⟩
        simp [dismissInvariant] at h
        simp [h]

theorem hideListBox_noop (s : ComboBoxState) (h : s.listBoxVisible = false) :
    hideListBox s = (s, []) := by
  simp [hideListBox, setListBoxVisible, h]

theorem hideListBox_open (d : DisplayId) :
    hideListBox { listBoxVisible := true, display := some d, attachedTo := [d] } =
      (cbInit, [CBAction.detach d]) := by
  simp [hideListBox, setListBoxVisible, cbInit]

theorem cbStep_preserves (s : ComboBoxState) (e : CBEvent)
    (h : dismissInvariant s = true) : dismissInvariant (cbStep s e) = true := by
  rcases dismissInvariant_shape s h with hs | ⟨d, hs⟩ <;> subst hs
  · cases e with
    | pressButton d =>
        simp [cbStep, pressComboBoxButton, setListBoxVisible, cbInit, dismissInvariant]
    | showList d =>
        simp [cbStep, showListBox, setListBoxVisible, cbInit, dismissInvariant]
    | hideList =>
        simp only [cbStep, hideListBox_noop cbInit rfl]
        exact h
    | pointerDown d b l =>
        simp [cbStep, clickToDismissDown, cbInit, dismissInvariant]
    | focusChange dismissing =>
        cases dismissing
        · exact h
        · simp only [cbStep, if_true, hideListBox_noop cbInit rfl]
          exact h
    | displayOnlySet =>
        simp only [cbStep, hideListBox_noop cbInit rfl]
        exact h
  · cases e with
    | pressButton d' =>
        simp [cbStep, pressComboBoxButton, setListBoxVisible, cbInit, dismissInvariant]
    | showList d' =>
        simp [cbStep, showListBox, setListBoxVisible, dismissInvariant]
    | hideList =>
        simp only [cbStep, hideListBox_open d]
        rfl
    | pointerDown d' b l =>
        simp only [cbStep]
        by_cases hd : d' = d
        · subst hd
          cases b <;> cases l <;>
            simp [clickToDismissDown, isFuzzEnabled, hideListBox, setListBoxVisible,
              dismissInvariant, cbInit]
        · simp [clickToDismissDown, hd, dismissInvariant]
    | focusChange dismissing =>
        cases dismissing
        · exact h
        · simp only [cbStep, if_true, hideListBox_open d]
          rfl
    | displayOnlySet =>
        simp only [cbStep, hideListBox_open d]
        rfl

/-- C3: from the initial closed state, every sequence of button presses,
show/hide calls, pointer-downs, focus changes and display-only toggles
preserves the invariant: the dismiss listener is attached to a root input
dispatcher iff the list box is visible, and then to exactly the one tracked
display; when hidden, the listener is detached and the display reference
cleared. -/
theorem comboBox_dismiss_listener_invariant (es : List CBEvent) :
    dismissInvariant (cbRun es) = true := by
  suffices h : ∀ s, dismissInvariant s = true → dismissInvariant (es.foldl cbStep s) = true by
    exact h cbInit rfl
  induction es with
  | nil => intro s hs; exact hs
  | cons e es ih =>
      intro s hs
      exact ih (cbStep s e) (cbStep_preserves s e hs)

/-- C7: while the list box is open (with the dismiss listener attached to the
tracked display `d`), a pointer-down through `d` whose trail contains neither
the button nor the list box closes the list box and detaches the listener,
returning to the closed state; a pointer-down whose trail contains the button
or the list box leaves the combo box state untouched by this root-level
listener. -/
theorem comboBox_outside_down_dismisses (d : DisplayId) (b l : Bool) (s : ComboBoxState)
    (hv : s.listBoxVisible = true) (hd : s.display = some d) (ha : s.attachedTo = [d]) :
    ((b || l) = false →
      (clickToDismissDown s d b l).1 = cbInit ∧
      (clickToDismissDown s d b l).2 = [CBAction.detach d]) ∧
    ((b || l) = true → clickToDismissDown s d b l = (s, [])) := by
  rcases s with ⟨v, disp, att⟩
  simp only at hv hd ha
  subst hv hd ha
  constructor
  · intro hbl
    simp [clickToDismissDown, isFuzzEnabled, hbl, hideListBox, setListBoxVisible, cbInit]
  · intro hbl
    simp [clickToDismissDown, isFuzzEnabled, hbl]

/-- Witness for `comboBox_outside_down_dismisses`: an outside pointer-down on
an open combo box attached to display 3. -/
theorem comboBox_outside_down_dismisses_witness :
    (clickToDismissDown
        { listBoxVisible := true, display := some 3, attachedTo := [3] } 3 false false).1 =
      cbInit ∧
    (clickToDismissDown
        { listBoxVisible := true, display := some 3, attachedTo := [3] } 3 false false).2 =
      [CBAction.detach 3] :=
  (comboBox_outside_down_dismisses 3 false false
      { listBoxVisible := true, display := some 3, attachedTo := [3] } rfl rfl rfl).1 rfl

theorem hideListBox_visible_false (s : ComboBoxState) :
    (hideListBox s).1.listBoxVisible = false := by
  rcases s with ⟨v, disp, att⟩
  cases v <;> cases disp <;>
    simp [hideListBox, setListBoxVisible] <;> split <;> simp

/-- C8: `hideListBox` is idempotent — after one `hideListBox` the second call
changes nothing and performs no detach; and on an already-hidden combo box a
`hideListBox` call is a complete no-op (no second detach attempt). -/
theorem comboBox_hideListBox_idempotent (s : ComboBoxState) :
    (hideListBox (hideListBox s).1 = ((hideListBox s).1, [])) ∧
    (s.listBoxVisible = false → hideListBox s = (s, [])) :=
  ⟨hideListBox_noop _ (hideListBox_visible_false s), fun hv => hideListBox_noop s hv⟩

/-- Witness for `comboBox_hideListBox_idempotent`: hiding an already-closed
combo box is a no-op. -/
theorem comboBox_hideListBox_idempotent_witness :
    hideListBox cbInit = (cbInit, []) :=
  (comboBox_hideListBox_idempotent cbInit).2 rfl

/-! ## AccessibleNumberSpinner keyboard-repeat
(appendix of src/js/buttons/BooleanRectangularToggleButton.ts)

The `accessibleInputListener` drives a `CallbackTimer` (delay `timerDelay`,
default 400 ms; interval `timerInterval`, default 100 ms).  Key codes are
embedded as `Nat`; `KeyboardUtils.isRangeKey` is an arbitrary recognizer
function.  Time advances in whole milliseconds: a running timer counts down,
fires its callbacks when the countdown reaches zero, and then reloads the
countdown with the interval. -/

structure SpinnerState where
  enabled : Bool
  timerRunning : Bool
  -- ms until the CallbackTimer next fires, when running
  countdown : Nat
  -- the key bound into the CallbackTimer's callback list (at most one callback)
  timerCallback : Option Nat
  -- the `downCallback` local (`none` = null)
  downCallback : Option Nat
  -- the key code of `runningTimerCallbackEvent`
  runningTimerCallbackEvent : Option Nat
  deriving DecidableEq, Repr

/-- Result of delivering a keydown: the new state, whether
`domEvent.preventDefault()` was called, and how many increment/decrement
actions were performed during the event. -/
structure SpinnerStep where
  state : SpinnerState
  preventDefaultCalled : Bool
  actionsFired : Nat
  deriving DecidableEq, Repr

/-- The `keydown` branch of `accessibleInputListener`: only acts when the
spinner is enabled and the key is a range key; always prevents default there;
and, when the meta key is not held and no timer runs, performs one immediate
action, binds the callback and starts the timer with the configured delay. -/
def spinnerKeydown (delay : Nat) (isRange : Nat → Bool) (s : SpinnerState)
    (key : Nat) (metaKey : Bool) : SpinnerStep :=
  if s.enabled then
    if isRange key then
      if !metaKey && !s.timerRunning then
        { state :=
            { s with
              timerRunning := true
              countdown := delay
              timerCallback := some key
              downCallback := some key
              runningTimerCallbackEvent := some key }
          preventDefaultCalled := true
          actionsFired := 1 }
      else { state := s, preventDefaultCalled := true, actionsFired := 0 }
    else { state := s, preventDefaultCalled := false, actionsFired := 0 }
  else { state := s, preventDefaultCalled := false, actionsFired := 0 }

/-- The `keyup` branch: for a range key matching `runningTimerCallbackEvent`,
stop the timer without firing, remove the bound callback and clear both
locals; any other key leaves the timer untouched. -/
def spinnerKeyup (isRange : Nat → Bool) (s : SpinnerState) (key : Nat) : SpinnerState :=
  if isRange key then
    match s.runningTimerCallbackEvent with
    | some k0 =>
        if key == k0 then
          { s with
            timerRunning := false
            timerCallback := if s.timerCallback == s.downCallback then none
              else s.timerCallback
            downCallback := none
            runningTimerCallbackEvent := none }
        else s
    | none => s
  else s

/-- The `blur` branch: if a key is down (`downCallback` non-null), stop the
timer without firing and remove the bound callback; the source does not clear
`downCallback` or `runningTimerCallbackEvent` here. -/
def spinnerBlur (s : SpinnerState) : SpinnerState :=
  match s.downCallback with
  | some _ =>
      { s with
        timerRunning := false
        timerCallback := if s.timerCallback == s.downCallback then none
          else s.timerCallback }
  | none => s

/-- One millisecond of `CallbackTimer` time: a running timer counts down and,
on reaching zero, fires its callbacks (one action per bound callback) and
reloads the countdown with the interval. -/
def spinnerTick (interval : Nat) (s : SpinnerState) : SpinnerState × Nat :=
  if s.timerRunning then
    if s.countdown ≤ 1 then
      ({ s with countdown := interval }, if s.timerCallback.isSome then 1 else 0)
    else ({ s with countdown := s.countdown - 1 }, 0)
  else (s, 0)

/-- `t` milliseconds of timer time; returns the total number of actions. -/
def spinnerTicks (interval : Nat) (s : SpinnerState) : Nat → SpinnerState × Nat
  | 0 => (s, 0)
  | t + 1 =>
      let p := spinnerTick interval s
      let q := spinnerTicks interval p.1 t
      (q.1, p.2 + q.2)

/-- Ticking only changes the countdown: all other fields are preserved. -/
theorem spinnerTicks_preserves (interval : Nat) (s : SpinnerState) (t : Nat) :
    (spinnerTicks interval s t).1.timerRunning = s.timerRunning ∧
    (spinnerTicks interval s t).1.timerCallback = s.timerCallback ∧
    (spinnerTicks interval s t).1.downCallback = s.downCallback ∧
    (spinnerTicks interval s t).1.runningTimerCallbackEvent = s.runningTimerCallbackEvent ∧
    (spinnerTicks interval s t).1.enabled = s.enabled := by
  induction t generalizing s with
  | zero => exact ⟨rfl, rfl, rfl, rfl, rfl⟩
  | succ t ih =>
      have hstep : (spinnerTick interval s).1.timerRunning = s.timerRunning ∧
          (spinnerTick interval s).1.timerCallback = s.timerCallback ∧
          (spinnerTick interval s).1.downCallback = s.downCallback ∧
          (spinnerTick interval s).1.runningTimerCallbackEvent =
            s.runningTimerCallbackEvent ∧
          (spinnerTick interval s).1.enabled = s.enabled := by
        unfold spinnerTick
        split
        · split <;> exact ⟨rfl, rfl, rfl, rfl, rfl⟩
        · exact ⟨rfl, rfl, rfl, rfl, rfl⟩
      have ih' := ih (spinnerTick interval s).1
      simp only [spinnerTicks]
      exact ⟨hstep.1 ▸ ih'.1, hstep.2.1 ▸ ih'.2.1, hstep.2.2.1 ▸ ih'.2.2.1,
        hstep.2.2.2.1 ▸ ih'.2.2.2.1, hstep.2.2.2.2 ▸ ih'.2.2.2.2⟩

/-- Action count of a running timer with a bound callback: nothing until the
current countdown elapses, then one action every `interval` ms. -/
theorem spinnerTicks_actions (interval : Nat) (hi : 0 < interval) :
    ∀ (t : Nat) (s : SpinnerState), s.timerRunning = true →
      s.timerCallback.isSome = true → 0 < s.countdown →
      (spinnerTicks interval s t).2 =
        if t < s.countdown then 0 else 1 + (t - s.countdown) / interval := by
  intro t
  induction t with
  | zero =>
      intro s _ _ hc
      simp [spinnerTicks, hc]
  | succ t ih =>
      intro s hr hcb hc
      simp only [spinnerTicks, spinnerTick, hr, if_true, hcb]
      by_cases h1 : s.countdown ≤ 1
      · have hc1 : s.countdown = 1 := by omega
        simp only [h1, if_true]
        have := ih { s with countdown := interval } hr hcb hi
        simp only at this
        rw [hr] at this
        rw [this]
        rw [hc1]
        by_cases h2 : t < interval
        · simp [h2, Nat.div_eq_of_lt h2, Nat.succ_sub_one]
        · have h2' : interval ≤ t := by omega
          have hdiv : t / interval = (t - interval) / interval + 1 :=
            Nat.div_eq_sub_div hi h2'
          simp only [if_neg (by omega : ¬ t + 1 < 1), if_neg h2]
          simp [hdiv]
          omega
      · simp only [h1, if_false]
        have := ih { s with countdown := s.countdown - 1 } hr hcb (by simp; omega)
        simp only at this
        rw [hr] at this
        rw [this, Nat.zero_add]
        by_cases h2 : t + 1 < s.countdown
        · rw [if_pos h2, if_pos (by omega : t < s.countdown - 1)]
        · rw [if_neg h2, if_neg (by omega : ¬ t < s.countdown - 1)]
          have h3 : t - (s.countdown - 1) = t + 1 - s.countdown := by omega
          rw [h3]

/-- Model of `KeyboardUtils.isRangeKey`: the range keys are the arrow, page,
home and end keys, embedded as codes 0–7. -/
def rangeKeyModel (k : Nat) : Bool := decide (k < 8)

/-- The idle spinner: enabled, no timer running, nothing bound. -/
def spinnerIdle : SpinnerState :=
  { enabled := true, timerRunning := false, countdown := 0,
    timerCallback := none, downCallback := none, runningTimerCallbackEvent := none }

/-- C4 counterexample: on an enabled spinner with no timer running, a keydown
of a recognized range key with the meta key held fires no action and does not
start the timer. -/
theorem spinner_keydown_meta_cex :
    spinnerIdle.enabled = true ∧ spinnerIdle.timerRunning = false ∧
    rangeKeyModel 0 = true ∧
    (spinnerKeydown 400 rangeKeyModel spinnerIdle 0 true).actionsFired = 0 ∧
    (spinnerKeydown 400 rangeKeyModel spinnerIdle 0 true).state.timerRunning = false := by
  decide

/-- C4 (amended): on an enabled spinner, a keydown of a recognized range key
with meta not held while no timer runs fires one immediate action and starts
the timer with countdown `timerDelay`; from there the repeat fires nothing for
`timerDelay` ms and then one action every `timerInterval` ms; a keyup of the
same key stops the timer, blur stops the timer, and a keyup of any different
key leaves the state untouched. -/
theorem spinner_keyboard_repeat (delay interval : Nat) (hd : 0 < delay)
    (hi : 0 < interval) (isRange : Nat → Bool) (s : SpinnerState) (k : Nat)
    (he : s.enabled = true) (hr : isRange k = true) (ht : s.timerRunning = false) :
    ((spinnerKeydown delay isRange s k false).actionsFired = 1 ∧
      (spinnerKeydown delay isRange s k false).state.timerRunning = true ∧
      (spinnerKeydown delay isRange s k false).state.runningTimerCallbackEvent = some k ∧
      (spinnerKeydown delay isRange s k false).state.countdown = delay) ∧
    (∀ t, (spinnerTicks interval (spinnerKeydown delay isRange s k false).state t).2 =
      if t < delay then 0 else 1 + (t - delay) / interval) ∧
    (∀ t, (spinnerKeyup isRange
      (spinnerTicks interval (spinnerKeydown delay isRange s k false).state t).1
        k).timerRunning = false) ∧
    (∀ t, (spinnerBlur
      (spinnerTicks interval (spinnerKeydown delay isRange s k false).state t).1
        ).timerRunning = false) ∧
    (∀ t k2, k2 ≠ k →
      spinnerKeyup isRange
        (spinnerTicks interval (spinnerKeydown delay isRange s k false).state t).1 k2 =
      (spinnerTicks interval (spinnerKeydown delay isRange s k false).state t).1) := by
  have harm : (spinnerKeydown delay isRange s k false) =
      { state :=
          { s with
            timerRunning := true
            countdown := delay
            timerCallback := some k
            downCallback := some k
            runningTimerCallbackEvent := some k }
        preventDefaultCalled := true
        actionsFired := 1 } := by
    simp [spinnerKeydown, he, hr, ht]
  rw [harm]
  set s1 : SpinnerState :=
    { s with
      timerRunning := true
      countdown := delay
      timerCallback := some k
      downCallback := some k
      runningTimerCallbackEvent := some k } with hs1
  refine ⟨⟨rfl, rfl, rfl, rfl⟩, ?_, ?_, ?_, ?_⟩
  · intro t
    exact spinnerTicks_actions interval hi t s1 rfl rfl hd
  · intro t
    have hp := spinnerTicks_preserves interval s1 t
    unfold spinnerKeyup
    rw [hp.2.2.2.1]
    simp [hr, spinnerKeyup]
  · intro t
    have hp := spinnerTicks_preserves interval s1 t
    unfold spinnerBlur
    rw [hp.2.2.1]
  · intro t k2 hk2
    have hp := spinnerTicks_preserves interval s1 t
    unfold spinnerKeyup
    rw [hp.2.2.2.1]
    by_cases hrk : isRange k2 = true
    · simp [hrk, hk2]
    · simp [Bool.not_eq_true] at hrk
      simp [hrk]

/-- Witness for `spinner_keyboard_repeat` at the default delay 400 ms and
interval 100 ms, key code 0 on the idle spinner. -/
theorem spinner_keyboard_repeat_witness :
    (spinnerKeydown 400 rangeKeyModel spinnerIdle 0 false).actionsFired = 1 :=
  (spinner_keyboard_repeat 400 100 (by decide) (by decide) rangeKeyModel spinnerIdle 0
      rfl (by decide) rfl).1.1

/-- C9 counterexample: on a disabled spinner, a keydown of a range key with
meta held does not call `preventDefault` at all. -/
theorem spinner_keydown_disabled_cex :
    rangeKeyModel 0 = true ∧
    (spinnerKeydown 400 rangeKeyModel
      { enabled := false, timerRunning := false, countdown := 0,
        timerCallback := none, downCallback := none,
        runningTimerCallbackEvent := none } 0 true).preventDefaultCalled = false := by
  decide

/-- C9 (amended): on an enabled spinner, a keydown of a recognized range key
with the meta/command key held calls `preventDefault` but performs no action,
arms no timer, and leaves the state completely unchanged. -/
theorem spinner_keydown_meta_no_arm (delay : Nat) (isRange : Nat → Bool)
    (s : SpinnerState) (k : Nat) (he : s.enabled = true) (hr : isRange k = true) :
    spinnerKeydown delay isRange s k true =
      { state := s, preventDefaultCalled := true, actionsFired := 0 } := by
  simp [spinnerKeydown, he, hr]

/-- Witness for `spinner_keydown_meta_no_arm` on the idle spinner. -/
theorem spinner_keydown_meta_no_arm_witness :
    spinnerKeydown 400 rangeKeyModel spinnerIdle 0 true =
      { state := spinnerIdle, preventDefaultCalled := true, actionsFired := 0 } :=
  spinner_keydown_meta_no_arm 400 rangeKeyModel spinnerIdle 0 rfl (by decide)

end Sun
